import Mathlib

/-!
# Verification of the `s3sqs` ingress orchestrator

A shallow embedding of `internal/ingress/s3sqs/s3sqs.go` (package `s3sqs`).
The file has three layers:

* a functional, trace-producing embedding of the per-message body of
  `Ingress.drain`, of `Ingress.acknowledge` and of `Ingress.ingest`,
  with the external capabilities (SQS delete, `encoding/json` decoding,
  semaphore acquisition, S3 load, the handler callback) supplied as
  oracles in an environment record;
* a faithful embedding of Go's `net/url.QueryUnescape` on character lists;
* a small-step state machine for the concurrency limiter
  (`golang.org/x/sync/semaphore.Weighted`) together with `Range`, the
  fetch tasks, and `Close`, used for the lifecycle and bounded-concurrency
  invariants, plus a tiny lifecycle model of the `cancel` field of the
  `Ingress` struct.
-/

namespace S3SQS

/-! ## Strings used by the monitor calls in the source -/

def errUnmarshalMsg : String := "sqs: unable to unmarshal"

def errUnescapeMsg : String := "sqs: unable to unescape query"

def errDeleteMsg : String := "sqs: unable to delete: "

def s3ReadErrorCounter : String := "s3readerror"

/-! ## `net/url.QueryUnescape`

Go's `url.QueryUnescape(s)` runs `unescape(s, encodeQueryComponent)`:
a `%` must be followed by two hexadecimal digits and decodes to that byte,
a `+` decodes to a space (query-component mode), every other byte is kept.
Any malformed `%` escape makes the whole call fail.  We model bytes by
`Char` (every decoded byte value is below 256, hence a valid `Char`). -/

def ishex (c : Char) : Bool :=
  (('0' ≤ c) && (c ≤ '9')) || (('a' ≤ c) && (c ≤ 'f')) || (('A' ≤ c) && (c ≤ 'F'))

def unhex (c : Char) : Nat :=
  if ('0' ≤ c) && (c ≤ '9') then c.toNat - '0'.toNat
  else if ('a' ≤ c) && (c ≤ 'f') then c.toNat - 'a'.toNat + 10
  else if ('A' ≤ c) && (c ≤ 'F') then c.toNat - 'A'.toNat + 10
  else 0

def queryUnescape : List Char → Option (List Char)
  | [] => some []
  | c :: rest =>
    if c = '%' then
      match rest with
      | a :: b :: rest2 =>
        if ishex a && ishex b then
          (queryUnescape rest2).map (fun t => Char.ofNat (16 * unhex a + unhex b) :: t)
        else none
      | _ => none
    else if c = '+' then (queryUnescape rest).map (fun t => ' ' :: t)
    else (queryUnescape rest).map (fun t => c :: t)

/-- `+` becomes a space, every other character is unchanged (the effect of
`QueryUnescape` on an escape-free string, characterwise). -/
def plusToSpace (c : Char) : Char := if c = '+' then ' ' else c

/-! ## Data model -/

/-- The two fields of an entry of `events.Records` that `drain` reads:
`event.S3.Bucket.Name` and `event.S3.Object.Key`.  The Go struct carries
many further fields (event version, region, request ids, ...); `drain`
never reads them, so they are omitted here. -/
structure S3Record where
  bucketName : String
  objectKey : String
  deriving DecidableEq, Repr

/-- The decoded notification envelope: the `Records` array of the
`events` struct. -/
structure Events where
  Records : List S3Record
  deriving DecidableEq, Repr

/-- An `*awssqs.Message` as far as `drain` and `acknowledge` read it:
its `Body` and `ReceiptHandle` pointer fields (either may be nil). -/
structure Message where
  body : Option String
  receiptHandle : Option String
  deriving DecidableEq, Repr

/-- One observable action of the drain loop or of a fetch task, in
program order.  `handlerCalled` records the payload passed to the
handler and the boolean the handler returned (which the source discards
with `_ = handler(data)`). -/
inductive Event where
  | deleteMsg
  | ackOk
  | errReported (msg : String)
  | unmarshal (body : String)
  | count1 (name : String)
  | duration
  | fetch (uri : String)
  | handlerCalled (data : String) (ret : Bool)
  | release
  | dispatch (bucket : String) (key : String)
  deriving DecidableEq, Repr

/-- The external capabilities of one drain iteration, as oracles:
the outcome of `sqs.DeleteMessage`, the `encoding/json` decoding of a
body into the `events` struct, the outcome of `limit.Acquire(ctx, 1)`
for the i-th record of the message (false models cancellation), the
outcome of `loader.Load` per URI, and the caller-supplied handler. -/
structure Env where
  deleteErr : Option String
  unmarshal : String → Option Events
  acquire : Nat → Bool
  fetch : String → Except String String
  handler : String → Bool

/-! ## `Ingress.ingest` -/

/-- The URI built by `fmt.Sprintf("s3://%s/%s", bucket, key)`. -/
def s3uri (bucket key : String) : String :=
  "s3://" ++ bucket ++ "/" ++ key

/-- Trace of `Ingress.ingest(bucket, key, handler)`.  The two `defer`s
run last-in-first-out on return: `limit.Release(1)` first, then
`monitor.Duration`.  On load failure the task counts `s3readerror`,
reports the error and returns without calling the handler; on success it
calls the handler and discards the returned boolean. -/
def ingest (bucket key : String) (fetch : String → Except String String)
    (handler : String → Bool) : List Event :=
  match fetch (s3uri bucket key) with
  | Except.error e =>
    [Event.fetch (s3uri bucket key), Event.count1 s3ReadErrorCounter,
     Event.errReported e, Event.release, Event.duration]
  | Except.ok data =>
    [Event.fetch (s3uri bucket key), Event.handlerCalled data (handler data),
     Event.release, Event.duration]

/-! ## `Ingress.acknowledge` and the per-message body of `Ingress.drain` -/

/-- `Ingress.acknowledge(msg)`: with a nil receipt handle it returns nil
without calling `DeleteMessage`; otherwise it calls `DeleteMessage` and
wraps a failure in `errors.Internal("sqs: unable to delete", err)`.
Returns the events emitted and the returned error. -/
def acknowledge (env : Env) (msg : Message) : List Event × Option String :=
  match msg.receiptHandle with
  | none => ([], none)
  | some _ =>
    ([Event.deleteMsg],
      match env.deleteErr with
      | some e => some (errDeleteMsg ++ e)
      | none => none)

/-- The record loop of `drain`: for each record, take the bucket name,
`url.QueryUnescape` the key (reporting and skipping the record on
failure), `limit.Acquire(ctx, 1)` (silently skipping the record on
failure), then `go s.ingest(bucket, key, handler)`.  The spawned task's
trace is inlined after its `dispatch` event; `i` is the record's index,
used to address the acquisition oracle. -/
def processRecords (env : Env) (i : Nat) : List S3Record → List Event
  | [] => []
  | r :: rs =>
    (match queryUnescape r.objectKey.toList with
     | none => [Event.errReported errUnescapeMsg]
     | some key =>
       if env.acquire i then
         Event.dispatch r.bucketName (String.mk key) ::
           ingest r.bucketName (String.mk key) env.fetch env.handler
       else []) ++ processRecords env (i + 1) rs

/-- The body of one iteration of `drain` for a received message:
nil messages and bodiless messages are skipped; the message is
acknowledged, a failure being reported and aborting the message; the
body is unmarshalled, a failure being reported and aborting the message;
then the records are processed.  `ackOk` marks `acknowledge` returning
nil, `unmarshal` marks the `json.Unmarshal` attempt. -/
def processMessage (env : Env) (m : Option Message) : List Event :=
  match m with
  | none => []
  | some msg =>
    match msg.body with
    | none => []
    | some body =>
      match acknowledge env msg with
      | (evs, some e) => evs ++ [Event.errReported e]
      | (evs, none) =>
        evs ++ [Event.ackOk, Event.unmarshal body] ++
          (match env.unmarshal body with
           | none => [Event.errReported errUnmarshalMsg]
           | some evts => processRecords env 0 evts.Records)

/-- The drain loop over a finite prefix of the message channel (the
loop itself only stops on cancellation; traces of consecutive
iterations are concatenated). -/
def drainTrace (env : Env) : List (Option Message) → List Event
  | [] => []
  | m :: ms => processMessage env m ++ drainTrace env ms

/-! ## Trace observations -/

def isDispatch : Event → Bool
  | Event.dispatch _ _ => true
  | _ => false

def isHandlerCall : Event → Bool
  | Event.handlerCalled _ _ => true
  | _ => false

def isUnmarshal : Event → Bool
  | Event.unmarshal _ => true
  | _ => false

/-- The locators of the dispatched fetch tasks, in dispatch order. -/
def dispatchedLocators (es : List Event) : List (String × String) :=
  es.filterMap (fun e =>
    match e with
    | Event.dispatch b k => some (b, k)
    | _ => none)

/-- The locator a record yields in `drain` when every acquisition
succeeds: its bucket and unescaped key, or nothing when unescaping
fails. -/
def recordLocator (r : S3Record) : Option (String × String) :=
  (queryUnescape r.objectKey.toList).map (fun k => (r.bucketName, String.mk k))

/-- Forget the boolean a handler returned (the source discards it). -/
def stripRet : Event → Event
  | Event.handlerCalled d _ => Event.handlerCalled d true
  | e => e

/-! ## Lifecycle state machine

After `Range` has been called, the system consists of the drain loop,
the spawned fetch tasks and possibly a `Close` call, coordinated through
the cancellation context and the weighted semaphore `limit` of capacity
`concurrency`.  `inFlight` counts tasks that hold a semaphore unit
(acquired by `drain` before `go s.ingest(...)`, released by the task's
deferred `limit.Release(1)`). -/

/-- `var concurrency = int64(runtime.NumCPU() * 3)`: the semaphore
capacity as a function of the host's CPU count. -/
def concurrency (numCPU : Nat) : Nat := numCPU * 3

structure SysState where
  inFlight : Nat
  cancelled : Bool
  queueClosed : Bool
  closeWaiting : Bool
  closeReturned : Bool
  deriving DecidableEq, Repr

/-- The state right after `Range` returned: no task dispatched, nothing
cancelled or closed. -/
def initState : SysState :=
  { inFlight := 0, cancelled := false, queueClosed := false,
    closeWaiting := false, closeReturned := false }

/-- Small-step transitions of the system, for semaphore capacity `cap`:

* `dispatchTask`: the drain loop acquires one unit with
  `limit.Acquire(ctx, 1)` and spawns a task.  The semaphore grants the
  unit only while one is free: the running tasks hold `inFlight` units
  and a returned `Close` holds the whole capacity.  Cancellation is
  deliberately not a guard here: a drain iteration already past its
  `ctx.Done()` check can still win the semaphore's fast path or be
  granted a queued unit after `cancel()`, so this rule over-approximates
  the interleavings of the Go scheduler.
* `finishTask`: a running task ends (successfully or not) and its
  deferred `limit.Release(1)` returns its unit.
* `closeCall`: `Close()` runs `s.cancel()` and `s.sqs.Close()`, then
  blocks in `s.limit.Acquire(context.Background(), concurrency)`.
* `closeAcquireDone`: that full-capacity acquisition completes, which
  the semaphore allows exactly when all `cap` units are free
  (`inFlight = 0`); `Close` then returns, holding the capacity
  forever. -/
inductive Step (cap : Nat) : SysState → SysState → Prop where
  | dispatchTask {s : SysState}
      (hcap : s.inFlight + (if s.closeReturned then cap else 0) < cap) :
      Step cap s { s with inFlight := s.inFlight + 1 }
  | finishTask {s : SysState} (h : 0 < s.inFlight) :
      Step cap s { s with inFlight := s.inFlight - 1 }
  | closeCall {s : SysState}
      (hw : s.closeWaiting = false) (hr : s.closeReturned = false) :
      Step cap s { s with cancelled := true, queueClosed := true,
                          closeWaiting := true }
  | closeAcquireDone {s : SysState}
      (hw : s.closeWaiting = true) (hr : s.closeReturned = false)
      (hidle : s.inFlight = 0) :
      Step cap s { s with closeReturned := true }

/-- States reachable from `initState` by `Step`. -/
inductive Reachable (cap : Nat) : SysState → Prop where
  | init : Reachable cap initState
  | step {s t : SysState} (hs : Reachable cap s) (ht : Step cap s t) :
      Reachable cap t

/-! ## The `cancel` field of the `Ingress` struct

`NewWith` leaves `cancel` at its zero value (a nil `context.CancelFunc`);
`Range` assigns it.  `Close` begins with `s.cancel()`: in Go, calling a
nil function value panics. -/

structure IngressLifecycle where
  cancelSet : Bool
  deriving DecidableEq, Repr

/-- `NewWith`: the `cancel` field is not assigned. -/
def newWith : IngressLifecycle := { cancelSet := false }

/-- `Range` stores the freshly created cancellation function. -/
def rangeCall (_s : IngressLifecycle) : IngressLifecycle := { cancelSet := true }

inductive CloseOutcome where
  | panicNilFunc
  | returned
  deriving DecidableEq, Repr

/-- `Close()` first calls `s.cancel()`: a panic when the field is still
nil; otherwise `Close` cancels, closes the reader and returns once the
full-capacity acquisition completes. -/
def closeCall (s : IngressLifecycle) : CloseOutcome :=
  if s.cancelSet then CloseOutcome.returned else CloseOutcome.panicNilFunc

/-! ## Concrete oracles used by the witnesses -/

def handlerTrue : String → Bool := fun _ => true

def handlerFalse : String → Bool := fun _ => false

def fetchOk : String → Except String String := fun _ => Except.ok ("payload")

def fetchFail : String → Except String String := fun _ => Except.error ("boom")

/-- Other event predicates used by the error-handling claims. -/
def isDeleteEv : Event → Bool
  | Event.deleteMsg => true
  | _ => false

def isAckOk : Event → Bool
  | Event.ackOk => true
  | _ => false

def isReadErrCount : Event → Bool
  | Event.count1 n => n == s3ReadErrorCounter
  | _ => false

/-- Inductive invariant tying `Close`'s phases together: a returned
`Close` went through its waiting phase, a waiting `Close` has already
cancelled the context and closed the reader, and a returned `Close`
left no task holding a semaphore unit. -/
def LifecycleInv (s : SysState) : Prop :=
  (s.closeReturned = true → s.closeWaiting = true) ∧
  (s.closeWaiting = true → s.cancelled = true ∧ s.queueClosed = true) ∧
  (s.closeReturned = true → s.inFlight = 0)

/-- A reachable state in which `Close` has returned. -/
def closedState : SysState :=
  { inFlight := 0, cancelled := true, queueClosed := true,
    closeWaiting := true, closeReturned := true }

/-- A reachable state with one task in flight. -/
def oneTaskState : SysState := { initState with inFlight := 1 }

/-- Relation between a record and the locator its fetch task was
dispatched with. -/
def locatorOf (r : S3Record) (loc : String × String) : Prop :=
  recordLocator r = some loc

/-- C3 counterexample environment: the body decodes to a valid envelope
with one record whose key `%` fails `QueryUnescape`; deletion succeeds
and every limiter acquisition succeeds. -/
def badKeyEnv : Env :=
  { deleteErr := none,
    unmarshal := fun b => if b = ("B") then some ⟨[⟨("b"), ("%")⟩]⟩ else none,
    acquire := fun _ => true,
    fetch := fetchOk,
    handler := handlerTrue }

def msgB : Message := { body := some ("B"), receiptHandle := some ("rh") }

/-- A witness environment: two records with decodable keys. -/
def goodEnv : Env :=
  { deleteErr := none,
    unmarshal := fun b =>
      if b = ("B") then some ⟨[⟨("b1"), ("a+b")⟩, ⟨("b2"), ("c%2Fd")⟩]⟩ else none,
    acquire := fun _ => true,
    fetch := fetchOk,
    handler := handlerTrue }

/-- A witness environment whose bodies never unmarshal. -/
def noParseEnv : Env :=
  { deleteErr := none,
    unmarshal := fun _ => none,
    acquire := fun _ => true,
    fetch := fetchOk,
    handler := handlerTrue }

/-- A witness environment whose queue deletions fail. -/
def delFailEnv : Env :=
  { deleteErr := some ("boom"),
    unmarshal := fun _ => none,
    acquire := fun _ => true,
    fetch := fetchOk,
    handler := handlerTrue }

/-- A witness environment: a record with an undecodable key between two
records with decodable keys. -/
def mixedEnv : Env :=
  { deleteErr := none,
    unmarshal := fun b =>
      if b = ("B") then
        some ⟨[⟨("b1"), ("ok1")⟩, ⟨("bad"), ("%zz")⟩, ⟨("b2"), ("ok2")⟩]⟩
      else none,
    acquire := fun _ => true,
    fetch := fetchOk,
    handler := handlerTrue }

/-! # Lemmas and claim theorems -/

lemma lifecycleInv_of_reachable {cap : Nat} {s : SysState}
    (h : Reachable cap s) : LifecycleInv s := by
  induction h with
  | init => exact ⟨by simp [initState], by simp [initState], by simp [initState]⟩
  | step hs ht ih =>
    obtain ⟨ih1, ih2, ih3⟩ := ih
    cases ht with
    | dispatchTask hcap =>
      refine ⟨ih1, ih2, fun hr => ?_⟩
      rw [hr] at hcap
      simp at hcap
    | finishTask h =>
      refine ⟨ih1, ih2, fun hr => ?_⟩
      exact absurd (ih3 hr) (by omega)
    | closeCall hw hr =>
      exact ⟨fun h => rfl, fun _ => ⟨rfl, rfl⟩, fun h => by simp [hr] at h⟩
    | closeAcquireDone hw hr hidle =>
      exact ⟨fun _ => hw, fun h => ih2 h, fun _ => hidle⟩

lemma inFlight_le_of_reachable {cap : Nat} {s : SysState}
    (h : Reachable cap s) : s.inFlight ≤ cap := by
  induction h with
  | init => simp [initState]
  | step hs ht ih =>
    cases ht with
    | dispatchTask hcap =>
      simp only [SysState.mk.injEq]
      split at hcap <;> omega
    | finishTask h => simp; omega
    | closeCall hw hr => simpa using ih
    | closeAcquireDone hw hr hidle => simpa using ih

/-- C1: `Close()` is a full shutdown barrier.  In every state reachable
after `Range`, once `Close()` has returned, the cancellation has been
signalled, the SQS reader has been closed, and no fetch task still holds
a limiter unit — every dispatched task has finished and released it. -/
theorem close_full_barrier (cap : Nat) (s : SysState)
    (hreach : Reachable cap s) (hret : s.closeReturned = true) :
    s.cancelled = true ∧ s.queueClosed = true ∧ s.inFlight = 0 := by
  obtain ⟨h1, h2, h3⟩ := lifecycleInv_of_reachable hreach
  exact ⟨(h2 (h1 hret)).1, (h2 (h1 hret)).2, h3 hret⟩

lemma reachable_closedState : Reachable (concurrency 1) closedState := by
  have h1 : Reachable (concurrency 1) initState := Reachable.init
  have h2 := Reachable.step h1 (Step.closeCall rfl rfl)
  have h3 := Reachable.step h2 (Step.closeAcquireDone rfl rfl rfl)
  simpa [closedState, initState] using h3

theorem close_full_barrier_witness :
    closedState.cancelled = true ∧ closedState.queueClosed = true ∧
      closedState.inFlight = 0 :=
  close_full_barrier (concurrency 1) closedState reachable_closedState rfl

/-- C2: bounded concurrency.  In every reachable state the number of
outstanding fetch tasks is at most the semaphore capacity; the capacity
defaults to three times `runtime.NumCPU()`; and a fetch task releases
its unit unconditionally at its end (on both the failure and the
success path of `ingest`). -/
theorem bounded_concurrency (numCPU : Nat) (s : SysState)
    (hreach : Reachable (concurrency numCPU) s) :
    s.inFlight ≤ concurrency numCPU ∧ concurrency numCPU = 3 * numCPU ∧
    ∀ (bucket key : String) (ld : String → Except String String)
      (h : String → Bool), Event.release ∈ ingest bucket key ld h := by
  refine ⟨inFlight_le_of_reachable hreach, by simp [concurrency, Nat.mul_comm], ?_⟩
  intro bucket key ld h
  unfold ingest
  cases ld (s3uri bucket key) <;> simp

lemma reachable_oneTaskState : Reachable (concurrency 2) oneTaskState := by
  have h1 := Reachable.step (Reachable.init)
    (Step.dispatchTask (show initState.inFlight +
      (if initState.closeReturned then concurrency 2 else 0) < concurrency 2 by decide))
  simpa [oneTaskState, initState] using h1

theorem bounded_concurrency_witness :
    oneTaskState.inFlight ≤ concurrency 2 ∧ concurrency 2 = 3 * 2 ∧
      Event.release ∈ ingest ("b") ("k") fetchOk handlerTrue :=
  ⟨(bounded_concurrency 2 oneTaskState reachable_oneTaskState).1,
   (bounded_concurrency 2 oneTaskState reachable_oneTaskState).2.1,
   (bounded_concurrency 2 oneTaskState reachable_oneTaskState).2.2
     ("b") ("k") fetchOk handlerTrue⟩

/-! ## Dispatch characterization -/

lemma dispatchedLocators_append (xs ys : List Event) :
    dispatchedLocators (xs ++ ys) = dispatchedLocators xs ++ dispatchedLocators ys := by
  simp [dispatchedLocators]

lemma dispatchedLocators_ingest (bucket key : String)
    (ld : String → Except String String) (h : String → Bool) :
    dispatchedLocators (ingest bucket key ld h) = [] := by
  unfold ingest
  cases ld (s3uri bucket key) <;> simp [dispatchedLocators]

lemma dispatchedLocators_cons_dispatch (b k : String) (es : List Event) :
    dispatchedLocators (Event.dispatch b k :: es) = (b, k) :: dispatchedLocators es := by
  simp [dispatchedLocators]

/-- With every limiter acquisition succeeding, the record loop
dispatches exactly the records whose key unescapes, each at its decoded
locator, in record order. -/
lemma dispatchedLocators_processRecords (env : Env)
    (hacq : ∀ j, env.acquire j = true) (i : Nat) (rs : List S3Record) :
    dispatchedLocators (processRecords env i rs) = rs.filterMap recordLocator := by
  induction rs generalizing i with
  | nil => simp [processRecords, dispatchedLocators]
  | cons r rs ih =>
    rw [processRecords, dispatchedLocators_append, ih (i + 1)]
    cases hq : queryUnescape r.objectKey.toList with
    | none =>
      have hq' : queryUnescape r.objectKey.data = none := hq
      simp [dispatchedLocators, recordLocator, hq', List.filterMap_cons]
    | some key =>
      have hq' : queryUnescape r.objectKey.data = some key := hq
      simp [hq', hacq i, dispatchedLocators_cons_dispatch, dispatchedLocators_ingest,
        recordLocator, List.filterMap_cons]

/-- The full per-message trace dispatches exactly the decodable records
of the decoded envelope, when acknowledgment succeeds and no
acquisition is cancelled. -/
lemma dispatchedLocators_processMessage (env : Env) (body rh : String)
    (evts : Events) (hdel : env.deleteErr = none)
    (hdec : env.unmarshal body = some evts) (hacq : ∀ j, env.acquire j = true) :
    dispatchedLocators (processMessage env (some ⟨some body, some rh⟩))
      = evts.Records.filterMap recordLocator := by
  simp only [processMessage, acknowledge, hdel, hdec]
  rw [dispatchedLocators_append, dispatchedLocators_append,
    dispatchedLocators_processRecords env hacq]
  simp [dispatchedLocators]

/-- `filterMap` over a list on which `f` is everywhere defined is a
pointwise relation between the list and its image. -/
lemma forall2_filterMap {α β : Type} (f : α → Option β) (l : List α)
    (h : ∀ a ∈ l, (f a).isSome = true) :
    List.Forall₂ (fun a b => f a = some b) l (l.filterMap f) := by
  induction l with
  | nil => simp
  | cons a l ih =>
    obtain ⟨b, hb⟩ := Option.isSome_iff_exists.mp (h a (List.mem_cons_self a l))
    rw [List.filterMap_cons, hb]
    exact List.Forall₂.cons hb (ih fun x hx => h x (List.mem_cons_of_mem a hx))

/-- C3 counterexample: a message whose body decodes to a valid envelope
with N = 1 records, with no cancellation of the limiter acquire, for
which zero (not one) fetch tasks are dispatched — the record's key `%`
fails percent-decoding, so dispatch does depend on record content. -/
theorem dispatch_per_record_counterexample :
    badKeyEnv.unmarshal ("B") = some ⟨[⟨("b"), ("%")⟩]⟩ ∧
    (Events.mk [⟨("b"), ("%")⟩]).Records.length = 1 ∧
    badKeyEnv.deleteErr = none ∧
    (dispatchedLocators (processMessage badKeyEnv (some msgB))).length = 0 := by
  refine ⟨rfl, rfl, rfl, ?_⟩
  decide

/-- C3 (amended): for every message whose body decodes to a valid
envelope with N records, each of whose keys percent-decodes
successfully, and absent cancellation of the limiter acquire, exactly N
fetch-and-handle tasks are dispatched, one per record (each record
paired with the locator of its own task, in order), regardless of the
records' other content. -/
theorem dispatch_per_record (env : Env) (body rh : String) (evts : Events)
    (hdel : env.deleteErr = none) (hdec : env.unmarshal body = some evts)
    (hacq : ∀ j, env.acquire j = true)
    (hkeys : ∀ r ∈ evts.Records, (queryUnescape r.objectKey.toList).isSome = true) :
    List.Forall₂ locatorOf evts.Records
      (dispatchedLocators (processMessage env (some ⟨some body, some rh⟩))) ∧
    (dispatchedLocators (processMessage env (some ⟨some body, some rh⟩))).length
      = evts.Records.length := by
  rw [dispatchedLocators_processMessage env body rh evts hdel hdec hacq]
  have hsome : ∀ r ∈ evts.Records, (recordLocator r).isSome = true := by
    intro r hr
    simpa [recordLocator, Option.isSome_map] using hkeys r hr
  have h2 := forall2_filterMap recordLocator evts.Records hsome
  exact ⟨h2, (List.Forall₂.length_eq h2).symm⟩

theorem dispatch_per_record_witness :
    List.Forall₂ locatorOf (Events.mk [⟨("b1"), ("a+b")⟩, ⟨("b2"), ("c%2Fd")⟩]).Records
      (dispatchedLocators (processMessage goodEnv (some ⟨some ("B"), some ("rh")⟩))) ∧
    (dispatchedLocators (processMessage goodEnv (some ⟨some ("B"), some ("rh")⟩))).length
      = (Events.mk [⟨("b1"), ("a+b")⟩, ⟨("b2"), ("c%2Fd")⟩]).Records.length :=
  dispatch_per_record goodEnv ("B") ("rh") (Events.mk [⟨("b1"), ("a+b")⟩, ⟨("b2"), ("c%2Fd")⟩])
    rfl rfl (fun _ => rfl) (by decide)

/-! ## Error-handling claims -/

/-- C6: a non-nil message with a body that fails to decode is
acknowledged exactly once before the decode is attempted (the queue
deletion happening exactly when a receipt handle is present), the
decode error is reported, zero fetch tasks are dispatched for the
message, and the drain loop continues with the next message. -/
theorem unparsable_body_semantics (env : Env) (body : String) (rh : Option String)
    (hdel : env.deleteErr = none) (hdec : env.unmarshal body = none) :
    processMessage env (some ⟨some body, rh⟩)
      = (acknowledge env ⟨some body, rh⟩).1 ++
        [Event.ackOk, Event.unmarshal body, Event.errReported errUnmarshalMsg] ∧
    (processMessage env (some ⟨some body, rh⟩)).countP isAckOk = 1 ∧
    (processMessage env (some ⟨some body, rh⟩)).countP isDeleteEv
      = (if rh.isSome then 1 else 0) ∧
    (processMessage env (some ⟨some body, rh⟩)).countP isDispatch = 0 ∧
    ∀ rest, drainTrace env (some ⟨some body, rh⟩ :: rest)
      = processMessage env (some ⟨some body, rh⟩) ++ drainTrace env rest := by
  cases rh <;>
    simp [processMessage, acknowledge, hdel, hdec, drainTrace,
      List.countP_cons, isAckOk, isDeleteEv, isDispatch]

theorem unparsable_body_semantics_witness :
    processMessage noParseEnv (some ⟨some ("junk"), some ("rh")⟩)
      = (acknowledge noParseEnv ⟨some ("junk"), some ("rh")⟩).1 ++
        [Event.ackOk, Event.unmarshal ("junk"), Event.errReported errUnmarshalMsg] ∧
    (processMessage noParseEnv (some ⟨some ("junk"), some ("rh")⟩)).countP isDispatch = 0 :=
  ⟨(unparsable_body_semantics noParseEnv ("junk") (some ("rh")) rfl rfl).1,
   (unparsable_body_semantics noParseEnv ("junk") (some ("rh")) rfl rfl).2.2.2.1⟩

lemma errUnescape_mem_processRecords (env : Env) (bad : S3Record)
    (hbad : queryUnescape bad.objectKey.toList = none) :
    ∀ (i : Nat) (rs1 rs2 : List S3Record),
      Event.errReported errUnescapeMsg ∈ processRecords env i (rs1 ++ bad :: rs2) := by
  intro i rs1
  induction rs1 generalizing i with
  | nil =>
    intro rs2
    rw [List.nil_append, processRecords, hbad]
    exact List.mem_append_left _ (List.mem_singleton.mpr rfl)
  | cons r rs ih =>
    intro rs2
    rw [List.cons_append, processRecords]
    exact List.mem_append_right _ (ih (i + 1) rs2)

/-- C7: a record whose key fails percent-decoding yields zero fetch
tasks, the unescape error is reported, and every sibling record of the
same envelope whose key does decode still yields its own fetch task. -/
theorem bad_key_skips_single_record (env : Env) (body rh : String)
    (rs1 rs2 : List S3Record) (bad : S3Record)
    (hdel : env.deleteErr = none)
    (hdec : env.unmarshal body = some ⟨rs1 ++ bad :: rs2⟩)
    (hbad : queryUnescape bad.objectKey.toList = none)
    (hacq : ∀ j, env.acquire j = true) :
    dispatchedLocators (processMessage env (some ⟨some body, some rh⟩))
      = rs1.filterMap recordLocator ++ rs2.filterMap recordLocator ∧
    Event.errReported errUnescapeMsg ∈ processMessage env (some ⟨some body, some rh⟩) ∧
    ∀ r ∈ rs1 ++ rs2, ∀ loc, recordLocator r = some loc →
      loc ∈ dispatchedLocators (processMessage env (some ⟨some body, some rh⟩)) := by
  have hchar := dispatchedLocators_processMessage env body rh ⟨rs1 ++ bad :: rs2⟩ hdel hdec hacq
  have hbad' : queryUnescape bad.objectKey.data = none := hbad
  have hbadloc : recordLocator bad = none := by
    simp [recordLocator, hbad']
  refine ⟨?_, ?_, ?_⟩
  · rw [hchar]
    simp [List.filterMap_append, List.filterMap_cons, hbadloc]
  · simp only [processMessage, acknowledge, hdel, hdec]
    exact List.mem_append_right _ (errUnescape_mem_processRecords env bad hbad 0 rs1 rs2)
  · intro r hr loc hloc
    rw [hchar]
    simp only [List.filterMap_append, List.filterMap_cons, hbadloc]
    rcases List.mem_append.mp hr with h | h
    · exact List.mem_append_left _ (List.mem_filterMap.mpr ⟨r, h, hloc⟩)
    · exact List.mem_append_right _ (List.mem_filterMap.mpr ⟨r, h, hloc⟩)

theorem bad_key_skips_single_record_witness :
    dispatchedLocators (processMessage mixedEnv (some ⟨some ("B"), some ("rh")⟩))
      = ([⟨("b1"), ("ok1")⟩] : List S3Record).filterMap recordLocator ++
        ([⟨("b2"), ("ok2")⟩] : List S3Record).filterMap recordLocator ∧
    Event.errReported errUnescapeMsg ∈ processMessage mixedEnv (some ⟨some ("B"), some ("rh")⟩) :=
  ⟨(bad_key_skips_single_record mixedEnv ("B") ("rh")
      [⟨("b1"), ("ok1")⟩] [⟨("b2"), ("ok2")⟩] ⟨("bad"), ("%zz")⟩
      rfl rfl (by decide) (fun _ => rfl)).1,
   (bad_key_skips_single_record mixedEnv ("B") ("rh")
      [⟨("b1"), ("ok1")⟩] [⟨("b2"), ("ok2")⟩] ⟨("bad"), ("%zz")⟩
      rfl rfl (by decide) (fun _ => rfl)).2.1⟩

/-- C9: acknowledgment strictly precedes processing.  With a receipt
handle, the queue deletion is the first event; if it fails, the error
is reported and the body is never decoded, with zero fetch tasks; if it
succeeds, decoding follows the acknowledgment.  Without a receipt
handle nothing is deleted and the message proceeds straight to
decoding. -/
theorem ack_before_parse (env : Env) (body rh e : String) :
    (env.deleteErr = some e →
      processMessage env (some ⟨some body, some rh⟩)
        = [Event.deleteMsg, Event.errReported (errDeleteMsg ++ e)] ∧
      (processMessage env (some ⟨some body, some rh⟩)).countP isUnmarshal = 0 ∧
      (processMessage env (some ⟨some body, some rh⟩)).countP isDispatch = 0) ∧
    (env.deleteErr = none →
      (processMessage env (some ⟨some body, some rh⟩)).take 3
        = [Event.deleteMsg, Event.ackOk, Event.unmarshal body]) ∧
    (acknowledge env ⟨some body, none⟩ = ([], none) ∧
     (processMessage env (some ⟨some body, none⟩)).take 2
        = [Event.ackOk, Event.unmarshal body]) := by
  refine ⟨fun hd => ?_, fun hd => ?_, rfl, ?_⟩
  · simp [processMessage, acknowledge, hd, List.countP_cons, isUnmarshal, isDispatch]
  · simp [processMessage, acknowledge, hd, List.take]
  · simp [processMessage, acknowledge, List.take]

theorem ack_before_parse_witness :
    processMessage delFailEnv (some ⟨some ("B"), some ("rh")⟩)
      = [Event.deleteMsg, Event.errReported (errDeleteMsg ++ ("boom"))] ∧
    (processMessage noParseEnv (some ⟨some ("B"), some ("rh")⟩)).take 3
      = [Event.deleteMsg, Event.ackOk, Event.unmarshal ("B")] ∧
    (processMessage noParseEnv (some ⟨some ("B"), none⟩)).take 2
      = [Event.ackOk, Event.unmarshal ("B")] :=
  ⟨((ack_before_parse delFailEnv ("B") ("rh") ("boom")).1 rfl).1,
   (ack_before_parse noParseEnv ("B") ("rh") ("x")).2.1 rfl,
   (ack_before_parse noParseEnv ("B") ("rh") ("x")).2.2.2⟩

/-- C8: on fetch failure `ingest` increments the `s3readerror` failure
counter exactly once, reports the error, releases the limiter unit and
never invokes the handler; on fetch success the counter is untouched,
the handler is invoked exactly once and the unit is still released. -/
theorem fetch_failure_semantics (bucket key : String)
    (ld : String → Except String String) (h : String → Bool) :
    (∀ e, ld (s3uri bucket key) = Except.error e →
      ingest bucket key ld h
        = [Event.fetch (s3uri bucket key), Event.count1 s3ReadErrorCounter,
           Event.errReported e, Event.release, Event.duration] ∧
      (ingest bucket key ld h).countP isReadErrCount = 1 ∧
      (ingest bucket key ld h).countP isHandlerCall = 0 ∧
      Event.release ∈ ingest bucket key ld h) ∧
    (∀ data, ld (s3uri bucket key) = Except.ok data →
      ingest bucket key ld h
        = [Event.fetch (s3uri bucket key), Event.handlerCalled data (h data),
           Event.release, Event.duration] ∧
      (ingest bucket key ld h).countP isReadErrCount = 0 ∧
      (ingest bucket key ld h).countP isHandlerCall = 1 ∧
      Event.release ∈ ingest bucket key ld h) := by
  constructor
  · intro e he
    simp [ingest, he, List.countP_cons, isReadErrCount, isHandlerCall]
  · intro data hd
    simp [ingest, hd, List.countP_cons, isReadErrCount, isHandlerCall]

theorem fetch_failure_semantics_witness :
    ingest ("b") ("k") fetchFail handlerTrue
      = [Event.fetch (s3uri ("b") ("k")), Event.count1 s3ReadErrorCounter,
         Event.errReported ("boom"), Event.release, Event.duration] ∧
    (ingest ("b") ("k") fetchFail handlerTrue).countP isHandlerCall = 0 ∧
    (ingest ("b") ("k") fetchOk handlerTrue).countP isHandlerCall = 1 :=
  ⟨((fetch_failure_semantics ("b") ("k") fetchFail handlerTrue).1 ("boom") rfl).1,
   ((fetch_failure_semantics ("b") ("k") fetchFail handlerTrue).1 ("boom") rfl).2.2.1,
   ((fetch_failure_semantics ("b") ("k") fetchOk handlerTrue).2 ("payload") rfl).2.2.1⟩

/-! ## The handler's boolean return value -/

lemma stripRet_ingest (bucket key : String) (ld : String → Except String String)
    (f g : String → Bool) :
    (ingest bucket key ld f).map stripRet = (ingest bucket key ld g).map stripRet := by
  unfold ingest
  cases ld (s3uri bucket key) <;> simp [stripRet]

lemma stripRet_processRecords (env1 env2 : Env)
    (hacq : env1.acquire = env2.acquire) (hf : env1.fetch = env2.fetch) :
    ∀ (i : Nat) (rs : List S3Record),
      (processRecords env1 i rs).map stripRet = (processRecords env2 i rs).map stripRet := by
  intro i rs
  induction rs generalizing i with
  | nil => rfl
  | cons r rs ih =>
    rw [processRecords, processRecords, List.map_append, List.map_append, ih (i + 1)]
    congr 1
    cases hq : queryUnescape r.objectKey.toList with
    | none => rfl
    | some key =>
      simp only [hq]
      rw [hacq, hf]
      by_cases ha : env2.acquire i = true
      · simp only [ha, if_true, List.map_cons]
        exact congrArg (List.cons _) (stripRet_ingest _ _ _ env1.handler env2.handler)
      · simp [ha]

lemma stripRet_processMessage (env : Env) (f g : String → Bool) (m : Option Message) :
    (processMessage { env with handler := f } m).map stripRet
      = (processMessage { env with handler := g } m).map stripRet := by
  cases m with
  | none => rfl
  | some msg =>
    obtain ⟨b, rh⟩ := msg
    cases b with
    | none => rfl
    | some body =>
      cases rh <;> cases hdel : env.deleteErr <;> cases hu : env.unmarshal body <;>
        simp [processMessage, acknowledge, hdel, hu, stripRet] <;>
          (apply stripRet_processRecords <;> rfl)

/-- C4: the handler is invoked with the fetched payload, but its boolean
result is discarded: for any two handlers the drain trace is identical
event for event (the recorded return value apart), so processing of
subsequent records and messages never depends on what the handler
returned. -/
theorem handler_result_ignored (env : Env) (msgs : List (Option Message))
    (f g : String → Bool) :
    (drainTrace { env with handler := f } msgs).map stripRet
      = (drainTrace { env with handler := g } msgs).map stripRet ∧
    ∀ (bucket key data : String) (ld : String → Except String String),
      ld (s3uri bucket key) = Except.ok data →
        Event.handlerCalled data (f data) ∈ ingest bucket key ld f := by
  constructor
  · induction msgs with
    | nil => rfl
    | cons m ms ih =>
      rw [drainTrace, drainTrace, List.map_append, List.map_append, ih,
        stripRet_processMessage env f g m]
  · intro bucket key data ld hld
    unfold ingest
    rw [hld]
    simp

theorem handler_result_ignored_witness :
    (drainTrace { goodEnv with handler := handlerTrue } [some msgB]).map stripRet
      = (drainTrace { goodEnv with handler := handlerFalse } [some msgB]).map stripRet ∧
    Event.handlerCalled ("payload") true ∈ ingest ("b") ("k") fetchOk handlerTrue :=
  ⟨(handler_result_ignored goodEnv [some msgB] handlerTrue handlerFalse).1,
   (handler_result_ignored goodEnv [] handlerTrue handlerFalse).2
     ("b") ("k") ("payload") fetchOk rfl⟩

/-! ## Query unescaping -/

lemma queryUnescape_no_escape (key : List Char) (h : '%' ∉ key) :
    queryUnescape key = some (key.map plusToSpace) := by
  induction key with
  | nil => rfl
  | cons c cs ih =>
    have hc : ¬ c = '%' := fun hh => h (hh ▸ List.mem_cons_self c cs)
    have hcs : '%' ∉ cs := fun hm => h (List.mem_cons_of_mem c hm)
    rw [queryUnescape.eq_def]
    by_cases hp : c = '+'
    · subst hp
      simp [ih hcs, plusToSpace]
    · simp [hc, hp, ih hcs, plusToSpace]

/-- C10: key decoding is Go's query-style unescaping: an `%XX` escape
with two hex digits decodes to that byte, and an escape-free key is
decoded to itself with every `+` turned into a space; the locator the
fetch capability receives is exactly `s3://` ++ bucket ++ `/` ++ decoded
key, so a record whose raw key holds a `+` is fetched with a space
there instead. -/
theorem query_unescape_locator (bucket : String) (key : List Char)
    (a b : Char) (rest : List Char) :
    ('%' ∉ key → queryUnescape key = some (key.map plusToSpace)) ∧
    (ishex a = true → ishex b = true →
      queryUnescape ('%' :: a :: b :: rest)
        = (queryUnescape rest).map (fun t => Char.ofNat (16 * unhex a + unhex b) :: t)) ∧
    (∀ (ld : String → Except String String) (h : String → Bool),
      (ingest bucket (String.mk key) ld h).take 1
        = [Event.fetch (("s3://") ++ bucket ++ ("/") ++ String.mk key)]) ∧
    (∀ env : Env, (∀ j, env.acquire j = true) → '%' ∉ key →
      dispatchedLocators (processRecords env 0 [⟨bucket, String.mk key⟩])
        = [(bucket, String.mk (key.map plusToSpace))]) := by
  refine ⟨queryUnescape_no_escape key, fun ha hb => ?_, fun ld h => ?_, fun env hacq hkey => ?_⟩
  · simp [queryUnescape, ha, hb]
  · unfold ingest s3uri
    cases ld (("s3://") ++ bucket ++ ("/") ++ String.mk key) <;> rfl
  · rw [dispatchedLocators_processRecords env hacq 0]
    simp [recordLocator, queryUnescape_no_escape key hkey]

theorem query_unescape_locator_witness :
    queryUnescape (("a+b").toList) = some ((("a+b").toList).map plusToSpace) ∧
    (("a+b").toList).map plusToSpace = ("a b").toList ∧
    (ingest ("bkt") (String.mk (("a+b").toList)) fetchOk handlerTrue).take 1
      = [Event.fetch (("s3://") ++ ("bkt") ++ ("/") ++ String.mk (("a+b").toList))] :=
  ⟨(query_unescape_locator ("bkt") (("a+b").toList) 'a' 'b' []).1 (by decide),
   by decide,
   (query_unescape_locator ("bkt") (("a+b").toList) 'a' 'b' []).2.2.1 fetchOk handlerTrue⟩

/-! ## Close before Start -/

/-- C5 counterexample: on an orchestrator built by `NewWith` on which
`Range` was never called, `Close()` immediately calls the `cancel`
field, still the nil zero value of `context.CancelFunc`; calling a nil
function value panics, so `Close` faults instead of returning. -/
theorem close_before_start_counterexample :
    closeCall newWith = CloseOutcome.panicNilFunc := rfl

/-- C5 (amended): calling `Close()` on an orchestrator on which `Range`
was never called panics on the nil cancellation function and does not
return (the drain-cancellation step and the full-capacity limiter
acquire are never reached); once `Range` has been called, `Close()`
returns. -/
theorem close_before_start (s : IngressLifecycle) :
    closeCall newWith = CloseOutcome.panicNilFunc ∧
    closeCall (rangeCall s) = CloseOutcome.returned :=
  ⟨rfl, rfl⟩

end S3SQS
